import Mathlib

/-!
Shallow embedding of `src/layers/core/grid-layer/grid-aggregator.js`.

The source is a small JavaScript module that bins geographic points into a
sparse density grid.  Numbers are modelled by `JSVal`: a real number
(idealising IEEE doubles as exact reals, with no overflow or rounding),
or one of the distinguished values `Infinity`, `-Infinity`, `NaN`, whose
arithmetic and comparison behaviour follows the JavaScript semantics that
the module actually exercises (NaN propagation, `NaN <= x` being false,
`Math.min()` of no arguments being `Infinity`, division by zero giving a
signed infinity, `Math.floor`/`Math.cos` on special values).

The hash-table keys are the template strings formed in the source
(`latIdx + "-" + lonIdx`); strings are modelled as `List Char`, with the
decimal printing of an integer, `String.prototype.split("-")` and
`parseInt(s, 10)` each given an explicit model below.  A JavaScript object
used as a dictionary with such (never array-index shaped) keys enumerates
its keys in insertion order, so the grid hash is modelled as an
association list in first-touch order.
-/

namespace GridAgg

/-- Model of a JavaScript number: a finite value (an exact real), positive
infinity, negative infinity, or NaN.  `-0` and overflow to infinity are not
modelled; all finite arithmetic is exact. -/
inductive JSVal : Type
  | num (x : ℝ)
  | pinf
  | ninf
  | nan

open JSVal

/-- JavaScript addition `a + b` on numbers. -/
noncomputable def jsAdd : JSVal → JSVal → JSVal
  | num a, num b => num (a + b)
  | num _, pinf => pinf
  | num _, ninf => ninf
  | num _, nan => nan
  | pinf, num _ => pinf
  | pinf, pinf => pinf
  | pinf, ninf => nan
  | pinf, nan => nan
  | ninf, num _ => ninf
  | ninf, pinf => nan
  | ninf, ninf => ninf
  | ninf, nan => nan
  | nan, _ => nan

/-- JavaScript multiplication `a * b` on numbers. -/
noncomputable def jsMul : JSVal → JSVal → JSVal
  | num a, num b => num (a * b)
  | num a, pinf => if 0 < a then pinf else if a < 0 then ninf else nan
  | num a, ninf => if 0 < a then ninf else if a < 0 then pinf else nan
  | num _, nan => nan
  | pinf, num b => if 0 < b then pinf else if b < 0 then ninf else nan
  | pinf, pinf => pinf
  | pinf, ninf => ninf
  | pinf, nan => nan
  | ninf, num b => if 0 < b then ninf else if b < 0 then pinf else nan
  | ninf, pinf => ninf
  | ninf, ninf => pinf
  | ninf, nan => nan
  | nan, _ => nan

/-- JavaScript division `a / b` on numbers (division of a nonzero finite
value by zero gives a signed infinity, `0 / 0` gives NaN; the divisor `0`
is treated as `+0`, since `-0` is not modelled). -/
noncomputable def jsDiv : JSVal → JSVal → JSVal
  | num a, num b =>
      if b = 0 then (if a = 0 then nan else if 0 < a then pinf else ninf)
      else num (a / b)
  | num _, pinf => num 0
  | num _, ninf => num 0
  | num _, nan => nan
  | pinf, num b => if 0 ≤ b then pinf else ninf
  | pinf, pinf => nan
  | pinf, ninf => nan
  | pinf, nan => nan
  | ninf, num b => if 0 ≤ b then ninf else pinf
  | ninf, pinf => nan
  | ninf, ninf => nan
  | ninf, nan => nan
  | nan, _ => nan

/-- JavaScript comparison `a <= b` (any comparison with NaN is false). -/
def jsLe : JSVal → JSVal → Prop
  | num a, num b => a ≤ b
  | num _, pinf => True
  | num _, ninf => False
  | num _, nan => False
  | pinf, num _ => False
  | pinf, pinf => True
  | pinf, ninf => False
  | pinf, nan => False
  | ninf, nan => False
  | ninf, _ => True
  | nan, _ => False

/-- The comparison is decidable (for finite values through the linear
order on the reals). -/
noncomputable instance (a b : JSVal) : Decidable (jsLe a b) :=
  match a, b with
  | num a, num b => inferInstanceAs (Decidable (a ≤ b))
  | num _, pinf => isTrue trivial
  | num _, ninf => isFalse id
  | num _, nan => isFalse id
  | pinf, num _ => isFalse id
  | pinf, pinf => isTrue trivial
  | pinf, ninf => isFalse id
  | pinf, nan => isFalse id
  | ninf, num _ => isTrue trivial
  | ninf, pinf => isTrue trivial
  | ninf, ninf => isTrue trivial
  | ninf, nan => isFalse id
  | nan, num _ => isFalse id
  | nan, pinf => isFalse id
  | nan, ninf => isFalse id
  | nan, nan => isFalse id

/-- JavaScript `Math.min` of two numbers (NaN if either argument is NaN). -/
noncomputable def jsMin2 : JSVal → JSVal → JSVal
  | num a, num b => num (min a b)
  | num a, pinf => num a
  | num _, ninf => ninf
  | num _, nan => nan
  | pinf, num b => num b
  | pinf, pinf => pinf
  | pinf, ninf => ninf
  | pinf, nan => nan
  | ninf, nan => nan
  | ninf, _ => ninf
  | nan, _ => nan

/-- JavaScript `Math.max` of two numbers (NaN if either argument is NaN). -/
noncomputable def jsMax2 : JSVal → JSVal → JSVal
  | num a, num b => num (max a b)
  | num a, ninf => num a
  | num _, pinf => pinf
  | num _, nan => nan
  | ninf, num b => num b
  | ninf, ninf => ninf
  | ninf, pinf => pinf
  | ninf, nan => nan
  | pinf, nan => nan
  | pinf, _ => pinf
  | nan, _ => nan

/-- `Math.min.apply(null, l)`: the variadic `Math.min`, whose value on an
empty argument list is `Infinity`. -/
noncomputable def jsMinList (l : List JSVal) : JSVal := l.foldr jsMin2 pinf

/-- `Math.max.apply(null, l)`: the variadic `Math.max`, whose value on an
empty argument list is `-Infinity`. -/
noncomputable def jsMaxList (l : List JSVal) : JSVal := l.foldr jsMax2 ninf

/-- `Math.cos` (NaN on every non-finite argument). -/
noncomputable def jsCos : JSVal → JSVal
  | num x => num (Real.cos x)
  | _ => nan

/-- `Math.floor` (the identity on infinities, NaN on NaN). -/
noncomputable def jsFloor : JSVal → JSVal
  | num x => num (⌊x⌋ : ℝ)
  | pinf => pinf
  | ninf => ninf
  | nan => nan

/-- The decimal digit character for `d < 10`. -/
def decChar (d : ℕ) : Char := Char.ofNat (48 + d)

/-- The numeric value of a decimal digit character. -/
def charVal (c : Char) : ℕ := c.toNat - 48

/-- Decimal digit string of a natural number, most significant digit
first, as JavaScript prints an integer-valued number. -/
def natChars (n : ℕ) : List Char :=
  if n = 0 then ['0'] else ((Nat.digits 10 n).map decChar).reverse

/-- Decimal string of an integer, with a leading minus sign when
negative, as JavaScript prints an integer-valued number. -/
def intChars (n : ℤ) : List Char :=
  if n < 0 then '-' :: natChars n.natAbs else natChars n.toNat

/-- Conversion of a number to its string for the template literal
forming the hash key.  In the source this is only ever applied to
`Math.floor` outputs, so finite values are integral; we print a finite
value through its floor (the identity on the reachable, integral
values).  Special values print as JavaScript prints them. -/
noncomputable def jsToString : JSVal → List Char
  | num x => intChars ⌊x⌋
  | pinf => ['I', 'n', 'f', 'i', 'n', 'i', 't', 'y']
  | ninf => '-' :: ['I', 'n', 'f', 'i', 'n', 'i', 't', 'y']
  | nan => ['N', 'a', 'N']

/-- `String.prototype.split("-")`: cut the character list at every
dash. -/
def splitDash : List Char → List (List Char)
  | [] => [[]]
  | c :: rest =>
      if c = '-' then [] :: splitDash rest
      else
        match splitDash rest with
        | [] => [[c]]
        | h :: t => (c :: h) :: t

/-- Value of a list of decimal digit characters, most significant
first. -/
def decValue (l : List Char) : ℕ := l.foldl (fun a c => 10 * a + charVal c) 0

/-- `parseInt(s, 10)`: an optional sign, then the longest leading run of
decimal digits; NaN when that run is empty.  (Leading whitespace and a
`+` sign never occur on the strings this module produces.) -/
noncomputable def jsParseInt (s : List Char) : JSVal :=
  if s.head? = some '-' then
    if (s.tail.takeWhile Char.isDigit).isEmpty then nan
    else num (-(decValue (s.tail.takeWhile Char.isDigit) : ℝ))
  else
    if (s.takeWhile Char.isDigit).isEmpty then nan
    else num (decValue (s.takeWhile Char.isDigit) : ℝ)

/-- Source line 20: `const R_EARTH = 6378000;`. -/
noncomputable def R_EARTH : JSVal := num 6378000

/-- `Math.PI` (idealised as the exact real π). -/
noncomputable def jsPi : JSVal := num Real.pi

/-- The pair of angular cell dimensions returned by
`_calculateGridLatLonOffset`. -/
structure GridOffset : Type where
  yOffset : JSVal
  xOffset : JSVal

/-- One entry of the grid hash: `{count, points}` accumulated for one
cell. -/
structure GridCell (P : Type*) : Type _ where
  count : ℕ
  points : List P

/-- Result shape of `_pointsToGridHashing`: `{gridHash, gridOffset}`. -/
structure GridResult (P : Type*) : Type _ where
  gridHash : List (List Char × GridCell P)
  gridOffset : GridOffset

/-- One element of `layerData`:
`{index, position: [lon, lat], count, points}`. -/
structure LayerDatum (P : Type*) : Type _ where
  index : ℕ
  position : JSVal × JSVal
  count : ℕ
  points : List P

/-- Result shape of `pointToDensityGridData`: `{gridOffset, layerData}`. -/
structure DensityResult (P : Type*) : Type _ where
  gridOffset : GridOffset
  layerData : List (LayerDatum P)

/-- `_calculateLatOffset(dy) = (dy / R_EARTH) * (180 / Math.PI)`
(source lines 114-116). -/
noncomputable def calculateLatOffset (dy : JSVal) : JSVal :=
  jsMul (jsDiv dy R_EARTH) (jsDiv (num 180) jsPi)

/-- `_calculateLonOffset(lat, dx) =
(dx / R_EARTH) * (180 / Math.PI) / Math.cos(lat * Math.PI / 180)`
(source lines 126-128). -/
noncomputable def calculateLonOffset (lat dx : JSVal) : JSVal :=
  jsDiv (jsMul (jsDiv dx R_EARTH) (jsDiv (num 180) jsPi))
    (jsCos (jsMul lat (jsDiv jsPi (num 180))))

/-- `_calculateGridLatLonOffset` (source lines 102-106). -/
noncomputable def calculateGridLatLonOffset (cellSize latitude : JSVal) : GridOffset :=
  { yOffset := calculateLatOffset cellSize
    xOffset := calculateLonOffset latitude cellSize }

/-- The reference latitude of `_pointsToGridHashing` (source lines 50-54):
`(Math.min(allLat) + Math.max(allLat)) / 2` over
`allLat = points.map(p => getPosition(p)[1])`. -/
noncomputable def centerLatOf {P : Type*} (points : List P)
    (getPosition : P → JSVal × JSVal) : JSVal :=
  jsDiv
    (jsAdd (jsMinList (points.map fun p => (getPosition p).2))
      (jsMaxList (points.map fun p => (getPosition p).2)))
    (num 2)

/-- `Math.floor((getPosition(pt)[1] + 90) / gridOffset.yOffset)`
(source line 63). -/
noncomputable def latIdxOf (off : GridOffset) (pos : JSVal × JSVal) : JSVal :=
  jsFloor (jsDiv (jsAdd pos.2 (num 90)) off.yOffset)

/-- `Math.floor((getPosition(pt)[0] + 180) / gridOffset.xOffset)`
(source line 64). -/
noncomputable def lonIdxOf (off : GridOffset) (pos : JSVal × JSVal) : JSVal :=
  jsFloor (jsDiv (jsAdd pos.1 (num 180)) off.xOffset)

/-- The template-literal hash key of source line 65. -/
noncomputable def keyOf (off : GridOffset) (pos : JSVal × JSVal) : List Char :=
  jsToString (latIdxOf off pos) ++ '-' :: jsToString (lonIdxOf off pos)

/-- One step of the reduce at source lines 62-72: fetch-or-create the
cell under `key` (created with `count: 0, points: []`), then apply
`count += 1` and `points.push(pt)`.  A fresh key is appended at the end,
as JavaScript object insertion does. -/
def updateGrid {P : Type*} (key : List Char) (pt : P) :
    List (List Char × GridCell P) → List (List Char × GridCell P)
  | [] => [(key, ⟨0 + 1, [pt]⟩)]
  | (k, c) :: rest =>
      if k = key then (k, ⟨c.count + 1, c.points ++ [pt]⟩) :: rest
      else (k, c) :: updateGrid key pt rest

/-- The reduce over `points` at source lines 62-72, starting from the
accumulator `acc` (the source starts from the empty object). -/
noncomputable def gridFold {P : Type*} (off : GridOffset)
    (getPosition : P → JSVal × JSVal) (acc : List (List Char × GridCell P))
    (points : List P) : List (List Char × GridCell P) :=
  points.foldl (fun accu pt => updateGrid (keyOf off (getPosition pt)) pt accu) acc

/-- `_pointsToGridHashing` (source lines 47-75). -/
noncomputable def pointsToGridHashing {P : Type*} (points : List P)
    (cellSize : JSVal) (getPosition : P → JSVal × JSVal) : GridResult P :=
  let gridOffset := calculateGridLatLonOffset cellSize (centerLatOf points getPosition)
  if jsLe gridOffset.xOffset (num 0) ∨ jsLe gridOffset.yOffset (num 0) then
    ⟨[], gridOffset⟩
  else
    ⟨gridFold gridOffset getPosition [] points, gridOffset⟩

/-- The body of the reduce of `_getGridLayerDataFromGridHash` (source
lines 78-91) for the entry at enumeration index `i`: split the key on
dashes, `parseInt` the first two fragments, and rebuild the position. -/
noncomputable def buildRow {P : Type*} (off : GridOffset) (i : ℕ)
    (entry : List Char × GridCell P) : LayerDatum P :=
  let idxs := splitDash entry.1
  let latIdx := jsParseInt (idxs.getD 0 [])
  let lonIdx := jsParseInt (idxs.getD 1 [])
  { index := i
    position := (jsAdd (num (-180)) (jsMul off.xOffset lonIdx),
      jsAdd (num (-90)) (jsMul off.yOffset latIdx))
    count := entry.2.count
    points := entry.2.points }

/-- The indexed reduce over `Object.keys(gridHash)` (source line 78),
whose callback receives the running index `i`. -/
noncomputable def buildRows {P : Type*} (off : GridOffset) :
    ℕ → List (List Char × GridCell P) → List (LayerDatum P)
  | _, [] => []
  | i, e :: rest => buildRow off i e :: buildRows off (i + 1) rest

/-- `_getGridLayerDataFromGridHash` (source lines 77-93). -/
noncomputable def getGridLayerDataFromGridHash {P : Type*}
    (gridHash : List (List Char × GridCell P)) (gridOffset : GridOffset) :
    List (LayerDatum P) :=
  buildRows gridOffset 0 gridHash

/-- `pointToDensityGridData` (source lines 29-38). -/
noncomputable def pointToDensityGridData {P : Type*} (points : List P)
    (cellSize : JSVal) (getPosition : P → JSVal × JSVal) : DensityResult P :=
  let r := pointsToGridHashing points cellSize getPosition
  ⟨r.gridOffset, getGridLayerDataFromGridHash r.gridHash r.gridOffset⟩

/-- First cell stored under a key in the grid hash (JavaScript property
lookup; keys are unique in any hash the source builds). -/
def findCell {P : Type*} (key : List Char) :
    List (List Char × GridCell P) → Option (GridCell P)
  | [] => none
  | (k, c) :: rest => if k = key then some c else findCell key rest

/-- Points stored under a key. -/
def cellPts {P : Type*} (key : List Char) (h : List (List Char × GridCell P)) :
    List P :=
  match findCell key h with
  | none => []
  | some c => c.points

/-- Count stored under a key. -/
def cellCount {P : Type*} (key : List Char) (h : List (List Char × GridCell P)) :
    ℕ :=
  match findCell key h with
  | none => 0
  | some c => c.count

/-- Total of the `count` fields of a grid hash. -/
def sumCounts {P : Type*} (h : List (List Char × GridCell P)) : ℕ :=
  (h.map fun e => e.2.count).sum

/-- Minimum of a head element and a list of reals (the `latMin` of the
spec, for a non-empty latitude list). -/
noncomputable def realMin : ℝ → List ℝ → ℝ
  | x, [] => x
  | x, y :: l => min x (realMin y l)

/-- Maximum of a head element and a list of reals (the `latMax` of the
spec, for a non-empty latitude list). -/
noncomputable def realMax : ℝ → List ℝ → ℝ
  | x, [] => x
  | x, y :: l => max x (realMax y l)

/-! ### Decimal strings: printing and parsing round-trip -/

lemma decChar_isDigit {d : ℕ} (h : d < 10) : (decChar d).isDigit = true := by
  unfold decChar
  interval_cases d <;> decide

lemma decChar_ne_dash {d : ℕ} (h : d < 10) : decChar d ≠ '-' := by
  unfold decChar
  interval_cases d <;> decide

lemma charVal_decChar {d : ℕ} (h : d < 10) : charVal (decChar d) = d := by
  unfold charVal decChar
  interval_cases d <;> decide

lemma natChars_all_digit {n : ℕ} : ∀ c ∈ natChars n, c.isDigit = true := by
  intro c hc
  unfold natChars at hc
  by_cases h0 : n = 0
  · simp [h0] at hc
    simp [hc]
  · rw [if_neg h0] at hc
    rw [List.mem_reverse, List.mem_map] at hc
    obtain ⟨d, hd, rfl⟩ := hc
    exact decChar_isDigit (Nat.digits_lt_base (by norm_num) hd)

lemma natChars_no_dash {n : ℕ} : '-' ∉ natChars n := by
  intro h
  have := natChars_all_digit (n := n) '-' h
  simp [Char.isDigit] at this

lemma natChars_ne_nil {n : ℕ} : natChars n ≠ [] := by
  unfold natChars
  by_cases h0 : n = 0
  · simp [h0]
  · rw [if_neg h0]
    simp [Nat.digits_ne_nil_iff_ne_zero.mpr h0]

lemma foldr_eq_ofDigits (l : List ℕ) :
    l.foldr (fun d a => 10 * a + d) 0 = Nat.ofDigits 10 l := by
  induction l with
  | nil => simp [Nat.ofDigits]
  | cons d t ih => simp [Nat.ofDigits_cons, ih] ; ring

lemma decValue_natChars (n : ℕ) : decValue (natChars n) = n := by
  unfold decValue natChars
  by_cases h0 : n = 0
  · simp [h0, charVal]
  · rw [if_neg h0, List.foldl_reverse]
    have hcongr : ((Nat.digits 10 n).map decChar).foldr (fun c a => 10 * a + charVal c) 0
        = (Nat.digits 10 n).foldr (fun d a => 10 * a + d) 0 := by
      have : ∀ L : List ℕ, (∀ d ∈ L, d < 10) →
          (L.map decChar).foldr (fun c a => 10 * a + charVal c) 0
            = L.foldr (fun d a => 10 * a + d) 0 := by
        intro L
        induction L with
        | nil => simp
        | cons d t ih =>
          intro hall
          simp only [List.map_cons, List.foldr_cons]
          rw [ih fun x hx => hall x (List.mem_cons_of_mem _ hx),
            charVal_decChar (hall d (List.mem_cons_self _ _))]
      exact this _ fun d hd => Nat.digits_lt_base (by norm_num) hd
    calc ((Nat.digits 10 n).map decChar).foldr (fun a c => (fun a c => 10 * a + charVal c) c a) 0
        = ((Nat.digits 10 n).map decChar).foldr (fun c a => 10 * a + charVal c) 0 := rfl
      _ = (Nat.digits 10 n).foldr (fun d a => 10 * a + d) 0 := hcongr
      _ = Nat.ofDigits 10 (Nat.digits 10 n) := foldr_eq_ofDigits _
      _ = n := Nat.ofDigits_digits 10 n

lemma natChars_head_digit {n : ℕ} : (natChars n).head? ≠ some '-' := by
  intro h
  rcases hn : natChars n with _ | ⟨c, t⟩
  · exact natChars_ne_nil hn
  · rw [hn] at h
    simp at h
    subst h
    exact natChars_no_dash (hn ▸ List.mem_cons_self _ _)

lemma jsParseInt_natChars (n : ℕ) : jsParseInt (natChars n) = num n := by
  unfold jsParseInt
  rw [if_neg natChars_head_digit,
    List.takeWhile_eq_self_iff.mpr natChars_all_digit,
    if_neg (by simp [natChars_ne_nil]), decValue_natChars]

/-! ### The dash-split of a key string -/

lemma splitDash_ne_nil (l : List Char) : splitDash l ≠ [] := by
  induction l with
  | nil => simp [splitDash]
  | cons c t ih =>
    rw [splitDash]
    by_cases hc : c = '-'
    · simp [hc]
    · rw [if_neg hc]
      rcases h : splitDash t with _ | ⟨a, b⟩ <;> simp

lemma splitDash_dash (rest : List Char) :
    splitDash ('-' :: rest) = [] :: splitDash rest := by
  rw [splitDash, if_pos rfl]

lemma splitDash_cons {c : Char} (rest : List Char) (hc : c ≠ '-') :
    splitDash (c :: rest)
      = (c :: (splitDash rest).headD []) :: (splitDash rest).tail := by
  rw [splitDash, if_neg hc]
  rcases h : splitDash rest with _ | ⟨a, b⟩
  · exact absurd h (splitDash_ne_nil rest)
  · simp

lemma splitDash_no_dash {l : List Char} (h : '-' ∉ l) : splitDash l = [l] := by
  induction l with
  | nil => rfl
  | cons c t ih =>
    have hc : c ≠ '-' := fun hc => h (hc ▸ List.mem_cons_self _ _)
    rw [splitDash_cons t hc, ih fun hm => h (List.mem_cons_of_mem _ hm)]
    simp

lemma splitDash_append {xs : List Char} (ys : List Char) (h : '-' ∉ xs) :
    splitDash (xs ++ '-' :: ys) = xs :: splitDash ys := by
  induction xs with
  | nil => simpa using splitDash_dash ys
  | cons c t ih =>
    have hc : c ≠ '-' := fun hc => h (hc ▸ List.mem_cons_self _ _)
    rw [List.cons_append, splitDash_cons _ hc,
      ih fun hm => h (List.mem_cons_of_mem _ hm)]
    simp

/-! ### Evaluation lemmas for the JavaScript arithmetic model -/

lemma jsAdd_num_num (a b : ℝ) : jsAdd (num a) (num b) = num (a + b) := rfl

lemma jsMul_num_num (a b : ℝ) : jsMul (num a) (num b) = num (a * b) := rfl

lemma jsMul_num_nan (a : ℝ) : jsMul (num a) nan = nan := rfl

lemma jsDiv_num_num {b : ℝ} (a : ℝ) (hb : b ≠ 0) :
    jsDiv (num a) (num b) = num (a / b) := by
  simp [jsDiv, hb]

lemma jsDiv_num_nan (a : ℝ) : jsDiv (num a) nan = nan := rfl

lemma jsLe_num_num (a b : ℝ) : jsLe (num a) (num b) ↔ a ≤ b := Iff.rfl

lemma not_jsLe_nan_left (v : JSVal) : ¬ jsLe nan v := by
  cases v <;> exact fun h => h

lemma jsCos_num (x : ℝ) : jsCos (num x) = num (Real.cos x) := rfl

lemma jsFloor_num (x : ℝ) : jsFloor (num x) = num (⌊x⌋ : ℝ) := rfl

/-! ### The offset calculator on finite inputs -/

lemma calculateLatOffset_num (c : ℝ) :
    calculateLatOffset (num c) = num (c / 6378000 * (180 / Real.pi)) := by
  rw [calculateLatOffset, R_EARTH, jsPi,
    jsDiv_num_num c (by norm_num), jsDiv_num_num 180 Real.pi_ne_zero,
    jsMul_num_num]

lemma calculateLonOffset_num_aux (lat c : ℝ) :
    calculateLonOffset (num lat) (num c)
      = jsDiv (num (c / 6378000 * (180 / Real.pi)))
          (num (Real.cos (lat * (Real.pi / 180)))) := by
  rw [calculateLonOffset, R_EARTH, jsPi,
    jsDiv_num_num c (by norm_num), jsDiv_num_num 180 Real.pi_ne_zero,
    jsMul_num_num, jsDiv_num_num Real.pi (by norm_num), jsMul_num_num,
    jsCos_num]

lemma calculateLonOffset_num {lat : ℝ} (c : ℝ)
    (hcos : Real.cos (lat * (Real.pi / 180)) ≠ 0) :
    calculateLonOffset (num lat) (num c)
      = num (c / 6378000 * (180 / Real.pi) / Real.cos (lat * (Real.pi / 180))) := by
  rw [calculateLonOffset_num_aux, jsDiv_num_num _ hcos]

lemma calculateLonOffset_nan (c : ℝ) :
    calculateLonOffset nan (num c) = nan := by
  rw [calculateLonOffset, R_EARTH, jsPi,
    jsDiv_num_num c (by norm_num), jsDiv_num_num 180 Real.pi_ne_zero,
    jsMul_num_num, jsDiv_num_num Real.pi (by norm_num)]
  rfl

/-! ### The variadic min and max -/

lemma jsMinList_nil : jsMinList [] = pinf := rfl

lemma jsMinList_cons (v : JSVal) (l : List JSVal) :
    jsMinList (v :: l) = jsMin2 v (jsMinList l) := rfl

lemma jsMaxList_nil : jsMaxList [] = ninf := rfl

lemma jsMaxList_cons (v : JSVal) (l : List JSVal) :
    jsMaxList (v :: l) = jsMax2 v (jsMaxList l) := rfl

lemma jsMinList_range {a b : ℝ} :
    ∀ l : List JSVal, l ≠ [] →
      (∀ v ∈ l, ∃ y : ℝ, v = num y ∧ a < y ∧ y < b) →
      ∃ m : ℝ, jsMinList l = num m ∧ a < m ∧ m < b := by
  intro l
  induction l with
  | nil => simp
  | cons v t ih =>
    intro _ hall
    obtain ⟨y, hy, hay, hyb⟩ := hall v (List.mem_cons_self _ _)
    rcases t with _ | ⟨w, t2⟩
    · exact ⟨y, by rw [jsMinList_cons, jsMinList_nil, hy] ; rfl, hay, hyb⟩
    · obtain ⟨m, hm, ham, hmb⟩ :=
        ih (by simp) fun u hu => hall u (List.mem_cons_of_mem _ hu)
      refine ⟨min y m, ?_, lt_min hay ham,
        lt_of_le_of_lt (min_le_left _ _) hyb⟩
      rw [jsMinList_cons, hm, hy]
      rfl

lemma jsMaxList_range {a b : ℝ} :
    ∀ l : List JSVal, l ≠ [] →
      (∀ v ∈ l, ∃ y : ℝ, v = num y ∧ a < y ∧ y < b) →
      ∃ m : ℝ, jsMaxList l = num m ∧ a < m ∧ m < b := by
  intro l
  induction l with
  | nil => simp
  | cons v t ih =>
    intro _ hall
    obtain ⟨y, hy, hay, hyb⟩ := hall v (List.mem_cons_self _ _)
    rcases t with _ | ⟨w, t2⟩
    · exact ⟨y, by rw [jsMaxList_cons, jsMaxList_nil, hy] ; rfl, hay, hyb⟩
    · obtain ⟨m, hm, ham, hmb⟩ :=
        ih (by simp) fun u hu => hall u (List.mem_cons_of_mem _ hu)
      refine ⟨max y m, ?_, lt_of_lt_of_le hay (le_max_left _ _),
        max_lt hyb hmb⟩
      rw [jsMaxList_cons, hm, hy]
      rfl

lemma jsMinList_map_num (x : ℝ) (l : List ℝ) :
    jsMinList ((x :: l).map num) = num (realMin x l) := by
  induction l generalizing x with
  | nil => rfl
  | cons y t ih =>
    rw [List.map_cons, jsMinList_cons, ih y]
    rfl

lemma jsMaxList_map_num (x : ℝ) (l : List ℝ) :
    jsMaxList ((x :: l).map num) = num (realMax x l) := by
  induction l generalizing x with
  | nil => rfl
  | cons y t ih =>
    rw [List.map_cons, jsMaxList_cons, ih y]
    rfl

/-! ### The reference latitude and the degenerate guard -/

lemma centerLatOf_map_num {P : Type*} {points : List P} {g : P → JSVal × JSVal}
    {x : ℝ} {l : List ℝ} (h : points.map (fun p => (g p).2) = (x :: l).map num) :
    centerLatOf points g = num ((realMin x l + realMax x l) / 2) := by
  rw [centerLatOf, h, jsMinList_map_num, jsMaxList_map_num, jsAdd_num_num,
    jsDiv_num_num _ (by norm_num : (2:ℝ) ≠ 0)]

lemma centerLatOf_range {P : Type*} {points : List P} {g : P → JSVal × JSVal}
    {a b : ℝ} (hne : points ≠ [])
    (hlat : ∀ p ∈ points, ∃ y : ℝ, (g p).2 = num y ∧ a < y ∧ y < b) :
    ∃ cl : ℝ, centerLatOf points g = num cl ∧ a < cl ∧ cl < b := by
  have hmap : points.map (fun p => (g p).2) ≠ [] := by
    simpa using hne
  have hall : ∀ v ∈ points.map (fun p => (g p).2),
      ∃ y : ℝ, v = num y ∧ a < y ∧ y < b := by
    intro v hv
    rw [List.mem_map] at hv
    obtain ⟨p, hp, rfl⟩ := hv
    exact hlat p hp
  obtain ⟨m, hm, h1, h2⟩ := jsMinList_range _ hmap hall
  obtain ⟨M, hM, h3, h4⟩ := jsMaxList_range _ hmap hall
  refine ⟨(m + M) / 2, ?_, by linarith, by linarith⟩
  rw [centerLatOf, hm, hM, jsAdd_num_num,
    jsDiv_num_num _ (by norm_num : (2:ℝ) ≠ 0)]

lemma cos_deg_pos {cl : ℝ} (h1 : -89 < cl) (h2 : cl < 89) :
    0 < Real.cos (cl * (Real.pi / 180)) := by
  apply Real.cos_pos_of_mem_Ioo
  have hp : (0:ℝ) < Real.pi / 180 := by positivity
  constructor
  · have : (-89 : ℝ) * (Real.pi / 180) < cl * (Real.pi / 180) :=
      mul_lt_mul_of_pos_right h1 hp
    have h90 : -(Real.pi / 2) = (-90 : ℝ) * (Real.pi / 180) := by ring
    rw [h90]
    have : (-90 : ℝ) * (Real.pi / 180) < (-89 : ℝ) * (Real.pi / 180) :=
      mul_lt_mul_of_pos_right (by norm_num) hp
    linarith
  · have : cl * (Real.pi / 180) < (89 : ℝ) * (Real.pi / 180) :=
      mul_lt_mul_of_pos_right h2 hp
    have h90 : Real.pi / 2 = (90 : ℝ) * (Real.pi / 180) := by ring
    rw [h90]
    have : (89 : ℝ) * (Real.pi / 180) < (90 : ℝ) * (Real.pi / 180) :=
      mul_lt_mul_of_pos_right (by norm_num) hp
    linarith

lemma gridOffset_of_pointsToGridHashing {P : Type*} (points : List P)
    (cellSize : JSVal) (g : P → JSVal × JSVal) :
    (pointsToGridHashing points cellSize g).gridOffset
      = calculateGridLatLonOffset cellSize (centerLatOf points g) := by
  rw [pointsToGridHashing]
  split <;> rfl

lemma pointsToGridHashing_guard {P : Type*} {points : List P}
    {cellSize : JSVal} {g : P → JSVal × JSVal}
    (h : jsLe (calculateGridLatLonOffset cellSize (centerLatOf points g)).xOffset (num 0)
      ∨ jsLe (calculateGridLatLonOffset cellSize (centerLatOf points g)).yOffset (num 0)) :
    pointsToGridHashing points cellSize g
      = ⟨[], calculateGridLatLonOffset cellSize (centerLatOf points g)⟩ := by
  rw [pointsToGridHashing, if_pos h]

lemma pointsToGridHashing_binned {P : Type*} {points : List P}
    {cellSize : JSVal} {g : P → JSVal × JSVal}
    (h : ¬ (jsLe (calculateGridLatLonOffset cellSize (centerLatOf points g)).xOffset (num 0)
      ∨ jsLe (calculateGridLatLonOffset cellSize (centerLatOf points g)).yOffset (num 0))) :
    pointsToGridHashing points cellSize g
      = ⟨gridFold (calculateGridLatLonOffset cellSize (centerLatOf points g)) g [] points,
          calculateGridLatLonOffset cellSize (centerLatOf points g)⟩ := by
  rw [pointsToGridHashing, if_neg h]

/-- In the well-conditioned case of the specification (positive finite
cell size, all latitudes strictly inside (-89, 89)) the computed offsets
are positive finite numbers and the guard falls through to the binning
loop. -/
lemma pointsToGridHashing_inrange {P : Type*} {points : List P}
    {g : P → JSVal × JSVal} {c : ℝ} (hne : points ≠ []) (hc : 0 < c)
    (hlat : ∀ p ∈ points, ∃ y : ℝ, (g p).2 = num y ∧ -89 < y ∧ y < 89) :
    ∃ y0 x0 : ℝ, 0 < y0 ∧ 0 < x0 ∧
      calculateGridLatLonOffset (num c) (centerLatOf points g) = ⟨num y0, num x0⟩ ∧
      pointsToGridHashing points (num c) g
        = ⟨gridFold ⟨num y0, num x0⟩ g [] points, ⟨num y0, num x0⟩⟩ := by
  obtain ⟨cl, hcl, hcl1, hcl2⟩ := centerLatOf_range hne hlat
  have hcos : 0 < Real.cos (cl * (Real.pi / 180)) := cos_deg_pos hcl1 hcl2
  have hy0 : (0:ℝ) < c / 6378000 * (180 / Real.pi) := by
    have := Real.pi_pos
    positivity
  have hx0 : (0:ℝ) < c / 6378000 * (180 / Real.pi) / Real.cos (cl * (Real.pi / 180)) :=
    div_pos hy0 hcos
  have hoff : calculateGridLatLonOffset (num c) (centerLatOf points g)
      = ⟨num (c / 6378000 * (180 / Real.pi)),
          num (c / 6378000 * (180 / Real.pi) / Real.cos (cl * (Real.pi / 180)))⟩ := by
    rw [calculateGridLatLonOffset, hcl, calculateLatOffset_num,
      calculateLonOffset_num _ (ne_of_gt hcos)]
  refine ⟨_, _, hy0, hx0, hoff, ?_⟩
  have hguard : ¬ (jsLe (calculateGridLatLonOffset (num c) (centerLatOf points g)).xOffset (num 0)
      ∨ jsLe (calculateGridLatLonOffset (num c) (centerLatOf points g)).yOffset (num 0)) := by
    rw [hoff]
    push_neg
    exact ⟨not_le.mpr hx0, not_le.mpr hy0⟩
  rw [pointsToGridHashing_binned hguard, hoff]

/-! ### Accumulation invariants of the grid hash -/

lemma cellPts_cons {P : Type*} (key k : List Char) (c : GridCell P)
    (t : List (List Char × GridCell P)) :
    cellPts key ((k, c) :: t) = if k = key then c.points else cellPts key t := by
  rw [cellPts, findCell]
  by_cases hk : k = key
  · rw [if_pos hk, if_pos hk]
  · rw [if_neg hk, if_neg hk]
    rfl

lemma cellCount_cons {P : Type*} (key k : List Char) (c : GridCell P)
    (t : List (List Char × GridCell P)) :
    cellCount key ((k, c) :: t) = if k = key then c.count else cellCount key t := by
  rw [cellCount, findCell]
  by_cases hk : k = key
  · rw [if_pos hk, if_pos hk]
  · rw [if_neg hk, if_neg hk]
    rfl

lemma cellPts_updateGrid_self {P : Type*} (key : List Char) (pt : P) :
    ∀ h : List (List Char × GridCell P),
      cellPts key (updateGrid key pt h) = cellPts key h ++ [pt] := by
  intro h
  induction h with
  | nil => simp [updateGrid, cellPts, findCell]
  | cons e t ih =>
    obtain ⟨k, c⟩ := e
    rw [updateGrid]
    by_cases hk : k = key
    · rw [if_pos hk, cellPts_cons, if_pos hk, cellPts_cons, if_pos hk]
    · rw [if_neg hk, cellPts_cons, if_neg hk, cellPts_cons, if_neg hk, ih]

lemma cellPts_updateGrid_ne {P : Type*} {key k : List Char} (hne : key ≠ k)
    (pt : P) : ∀ h : List (List Char × GridCell P),
      cellPts k (updateGrid key pt h) = cellPts k h := by
  intro h
  induction h with
  | nil => simp [updateGrid, cellPts, findCell, hne]
  | cons e t ih =>
    obtain ⟨k0, c⟩ := e
    rw [updateGrid]
    by_cases hk : k0 = key
    · rw [if_pos hk, cellPts_cons, cellPts_cons]
      have : k0 ≠ k := hk ▸ hne
      rw [if_neg this, if_neg this]
    · rw [if_neg hk, cellPts_cons, cellPts_cons]
      by_cases h2 : k0 = k
      · rw [if_pos h2, if_pos h2]
      · rw [if_neg h2, if_neg h2, ih]

lemma cellCount_updateGrid_self {P : Type*} (key : List Char) (pt : P) :
    ∀ h : List (List Char × GridCell P),
      cellCount key (updateGrid key pt h) = cellCount key h + 1 := by
  intro h
  induction h with
  | nil => simp [updateGrid, cellCount, findCell]
  | cons e t ih =>
    obtain ⟨k, c⟩ := e
    rw [updateGrid]
    by_cases hk : k = key
    · rw [if_pos hk, cellCount_cons, if_pos hk, cellCount_cons, if_pos hk]
    · rw [if_neg hk, cellCount_cons, if_neg hk, cellCount_cons, if_neg hk, ih]

lemma cellCount_updateGrid_ne {P : Type*} {key k : List Char} (hne : key ≠ k)
    (pt : P) : ∀ h : List (List Char × GridCell P),
      cellCount k (updateGrid key pt h) = cellCount k h := by
  intro h
  induction h with
  | nil => simp [updateGrid, cellCount, findCell, hne]
  | cons e t ih =>
    obtain ⟨k0, c⟩ := e
    rw [updateGrid]
    by_cases hk : k0 = key
    · rw [if_pos hk, cellCount_cons, cellCount_cons]
      have : k0 ≠ k := hk ▸ hne
      rw [if_neg this, if_neg this]
    · rw [if_neg hk, cellCount_cons, cellCount_cons]
      by_cases h2 : k0 = k
      · rw [if_pos h2, if_pos h2]
      · rw [if_neg h2, if_neg h2, ih]

lemma gridFold_nil {P : Type*} (off : GridOffset) (g : P → JSVal × JSVal)
    (acc : List (List Char × GridCell P)) : gridFold off g acc [] = acc := rfl

lemma gridFold_cons {P : Type*} (off : GridOffset) (g : P → JSVal × JSVal)
    (acc : List (List Char × GridCell P)) (p : P) (pts : List P) :
    gridFold off g acc (p :: pts)
      = gridFold off g (updateGrid (keyOf off (g p)) p acc) pts := rfl

lemma sumCounts_cons {P : Type*} (k : List Char) (c : GridCell P)
    (t : List (List Char × GridCell P)) :
    sumCounts ((k, c) :: t) = c.count + sumCounts t := by
  simp [sumCounts]

lemma sumCounts_updateGrid {P : Type*} (key : List Char) (pt : P) :
    ∀ h : List (List Char × GridCell P),
      sumCounts (updateGrid key pt h) = sumCounts h + 1 := by
  intro h
  induction h with
  | nil => simp [updateGrid, sumCounts]
  | cons e t ih =>
    obtain ⟨k, c⟩ := e
    rw [updateGrid]
    by_cases hk : k = key
    · rw [if_pos hk, sumCounts_cons, sumCounts_cons]
      show c.count + 1 + sumCounts t = c.count + sumCounts t + 1
      omega
    · rw [if_neg hk, sumCounts_cons, sumCounts_cons, ih]
      omega

lemma sumCounts_gridFold {P : Type*} (off : GridOffset) (g : P → JSVal × JSVal) :
    ∀ (pts : List P) (acc : List (List Char × GridCell P)),
      sumCounts (gridFold off g acc pts) = sumCounts acc + pts.length := by
  intro pts
  induction pts with
  | nil => intro acc ; simp [gridFold_nil]
  | cons p t ih =>
    intro acc
    rw [gridFold_cons, ih, sumCounts_updateGrid]
    simp
    omega

lemma cellPts_gridFold {P : Type*} (off : GridOffset) (g : P → JSVal × JSVal)
    (k : List Char) : ∀ (pts : List P) (acc : List (List Char × GridCell P)),
      cellPts k (gridFold off g acc pts)
        = cellPts k acc ++ pts.filter (fun p => keyOf off (g p) = k) := by
  intro pts
  induction pts with
  | nil => intro acc ; simp [gridFold_nil]
  | cons p t ih =>
    intro acc
    rw [gridFold_cons, ih, List.filter_cons]
    by_cases hk : keyOf off (g p) = k
    · rw [hk, cellPts_updateGrid_self]
      simp [hk]
    · rw [cellPts_updateGrid_ne hk]
      simp [hk]

lemma cellCount_gridFold {P : Type*} (off : GridOffset) (g : P → JSVal × JSVal)
    (k : List Char) : ∀ (pts : List P) (acc : List (List Char × GridCell P)),
      cellCount k (gridFold off g acc pts)
        = cellCount k acc + (pts.filter (fun p => keyOf off (g p) = k)).length := by
  intro pts
  induction pts with
  | nil => intro acc ; simp [gridFold_nil]
  | cons p t ih =>
    intro acc
    rw [gridFold_cons, ih, List.filter_cons]
    by_cases hk : keyOf off (g p) = k
    · rw [hk, cellCount_updateGrid_self]
      simp [hk]
      omega
    · rw [cellCount_updateGrid_ne hk]
      simp [hk]

lemma keys_updateGrid {P : Type*} (key : List Char) (pt : P) :
    ∀ h : List (List Char × GridCell P),
      (updateGrid key pt h).map Prod.fst
        = if key ∈ h.map Prod.fst then h.map Prod.fst
          else h.map Prod.fst ++ [key] := by
  intro h
  induction h with
  | nil => simp [updateGrid]
  | cons e t ih =>
    obtain ⟨k, c⟩ := e
    rw [updateGrid]
    by_cases hk : k = key
    · subst hk
      have hmem : k ∈ ((k, c) :: t).map Prod.fst := by
        rw [List.map_cons]
        exact List.mem_cons_self _ _
      rw [if_pos rfl, if_pos hmem]
      rfl
    · rw [if_neg hk]
      have hne : ¬ key = k := fun h2 => hk h2.symm
      by_cases hmem : key ∈ t.map Prod.fst
      · have hmem2 : key ∈ ((k, c) :: t).map Prod.fst := by
          rw [List.map_cons]
          exact List.mem_cons_of_mem _ hmem
        simp only [List.map_cons, ih]
        rw [if_pos hmem, if_pos (by rw [List.map_cons] at hmem2 ; exact hmem2)]
      · have hmem2 : ¬ key ∈ ((k, c) :: t).map Prod.fst := by
          rw [List.map_cons, List.mem_cons]
          rintro (h1 | h2)
          · exact hne h1
          · exact hmem h2
        simp only [List.map_cons, ih]
        rw [if_neg hmem, if_neg (by rw [List.map_cons] at hmem2 ; exact hmem2)]
        rfl

lemma nodup_keys_updateGrid {P : Type*} (key : List Char) (pt : P)
    {h : List (List Char × GridCell P)} (hnd : (h.map Prod.fst).Nodup) :
    ((updateGrid key pt h).map Prod.fst).Nodup := by
  rw [keys_updateGrid]
  by_cases hmem : key ∈ h.map Prod.fst
  · rw [if_pos hmem]
    exact hnd
  · rw [if_neg hmem]
    simp [List.nodup_append, hnd, hmem]

lemma nodup_keys_gridFold {P : Type*} (off : GridOffset) (g : P → JSVal × JSVal) :
    ∀ (pts : List P) (acc : List (List Char × GridCell P)),
      (acc.map Prod.fst).Nodup → ((gridFold off g acc pts).map Prod.fst).Nodup := by
  intro pts
  induction pts with
  | nil => intro acc h ; simpa [gridFold_nil] using h
  | cons p t ih =>
    intro acc h
    rw [gridFold_cons]
    exact ih _ (nodup_keys_updateGrid _ _ h)

lemma findCell_eq_of_mem {P : Type*} :
    ∀ {h : List (List Char × GridCell P)} {k : List Char} {c : GridCell P},
      (h.map Prod.fst).Nodup → (k, c) ∈ h → findCell k h = some c := by
  intro h
  induction h with
  | nil => simp
  | cons e t ih =>
    intro k c hnd hmem
    obtain ⟨k0, c0⟩ := e
    rw [findCell]
    rcases List.mem_cons.mp hmem with heq | htail
    · obtain ⟨h1, h2⟩ := Prod.mk.injEq .. ▸ heq
      rw [if_pos h1.symm, h2]
    · by_cases hk : k0 = k
      · exfalso
        have hkeys : k ∈ t.map Prod.fst :=
          List.mem_map_of_mem Prod.fst htail
        rw [List.map_cons, List.nodup_cons] at hnd
        exact hnd.1 (hk ▸ hkeys)
      · rw [if_neg hk]
        exact ih (by rw [List.map_cons, List.nodup_cons] at hnd ; exact hnd.2) htail

lemma mem_keys_gridFold {P : Type*} (off : GridOffset) (g : P → JSVal × JSVal)
    {k : List Char} : ∀ (pts : List P) (acc : List (List Char × GridCell P)),
      k ∈ (gridFold off g acc pts).map Prod.fst →
      k ∈ acc.map Prod.fst ∨ ∃ p ∈ pts, keyOf off (g p) = k := by
  intro pts
  induction pts with
  | nil => intro acc h ; exact Or.inl h
  | cons p t ih =>
    intro acc h
    rw [gridFold_cons] at h
    rcases ih _ h with hacc | ⟨q, hq, hkey⟩
    · rw [keys_updateGrid] at hacc
      by_cases hmem : keyOf off (g p) ∈ acc.map Prod.fst
      · rw [if_pos hmem] at hacc
        exact Or.inl hacc
      · rw [if_neg hmem] at hacc
        rcases List.mem_append.mp hacc with h1 | h2
        · exact Or.inl h1
        · refine Or.inr ⟨p, List.mem_cons_self _ _, ?_⟩
          exact (List.mem_singleton.mp h2).symm
    · exact Or.inr ⟨q, List.mem_cons_of_mem _ hq, hkey⟩

/-- Every entry of a grid hash built from the empty accumulator is
internally consistent: its count is the length of its point list, at
least one point is present, and the point list is exactly the input
filtered to the points whose key is the entry's key. -/
lemma gridFold_entry_spec {P : Type*} (off : GridOffset) (g : P → JSVal × JSVal)
    (pts : List P) : ∀ e ∈ gridFold off g [] pts,
      e.2.count = e.2.points.length ∧ 1 ≤ e.2.count ∧
      e.2.points = pts.filter (fun p => keyOf off (g p) = e.1) := by
  intro e he
  obtain ⟨k, c⟩ := e
  have hnd : ((gridFold off g [] pts).map Prod.fst).Nodup :=
    nodup_keys_gridFold off g pts [] (by simp)
  have hfind := findCell_eq_of_mem hnd he
  have hpts : c.points = pts.filter (fun p => keyOf off (g p) = k) := by
    have h1 := cellPts_gridFold off g k pts []
    rw [cellPts, hfind] at h1
    simpa [cellPts, findCell] using h1
  have hcount : c.count = (pts.filter (fun p => keyOf off (g p) = k)).length := by
    have h1 := cellCount_gridFold off g k pts []
    rw [cellCount, hfind] at h1
    simpa [cellCount, findCell] using h1
  have hne : pts.filter (fun p => keyOf off (g p) = k) ≠ [] := by
    have hk : k ∈ (gridFold off g [] pts).map Prod.fst :=
      List.mem_map_of_mem Prod.fst he
    rcases mem_keys_gridFold off g pts [] hk with h0 | ⟨p, hp, hkey⟩
    · simp at h0
    · intro hemp
      have : p ∈ pts.filter (fun p => keyOf off (g p) = k) :=
        List.mem_filter.mpr ⟨hp, by simp [hkey]⟩
      rw [hemp] at this
      simp at this
  refine ⟨by rw [hcount, hpts], ?_, hpts⟩
  rw [hcount]
  have := List.length_pos.mpr hne
  omega

/-! ### The layer data builder -/

lemma buildRow_count {P : Type*} (off : GridOffset) (i : ℕ)
    (e : List Char × GridCell P) : (buildRow off i e).count = e.2.count := rfl

lemma buildRow_points {P : Type*} (off : GridOffset) (i : ℕ)
    (e : List Char × GridCell P) : (buildRow off i e).points = e.2.points := rfl

lemma buildRows_map_count {P : Type*} (off : GridOffset) :
    ∀ (h : List (List Char × GridCell P)) (i : ℕ),
      (buildRows off i h).map (fun d => d.count) = h.map (fun e => e.2.count) := by
  intro h
  induction h with
  | nil => intro i ; rfl
  | cons e t ih => intro i ; simp [buildRows, buildRow_count, ih]

lemma buildRows_map_points {P : Type*} (off : GridOffset) :
    ∀ (h : List (List Char × GridCell P)) (i : ℕ),
      (buildRows off i h).map (fun d => d.points) = h.map (fun e => e.2.points) := by
  intro h
  induction h with
  | nil => intro i ; rfl
  | cons e t ih => intro i ; simp [buildRows, buildRow_points, ih]

lemma buildRows_map_count_points {P : Type*} (off : GridOffset) :
    ∀ (h : List (List Char × GridCell P)) (i : ℕ),
      (buildRows off i h).map (fun d => (d.count, d.points))
        = h.map (fun e => (e.2.count, e.2.points)) := by
  intro h
  induction h with
  | nil => intro i ; rfl
  | cons e t ih =>
    intro i ; simp [buildRows, buildRow_count, buildRow_points, ih]

lemma buildRows_get {P : Type*} (off : GridOffset) :
    ∀ (h : List (List Char × GridCell P)) (i j : ℕ),
      (buildRows off i h).get? j = (h.get? j).map (buildRow off (i + j)) := by
  intro h
  induction h with
  | nil => intro i j ; simp [buildRows]
  | cons e t ih =>
    intro i j
    rcases j with _ | j
    · simp [buildRows]
    · rw [buildRows]
      have harith : i + 1 + j = i + (j + 1) := by omega
      rw [List.get?_cons_succ, List.get?_cons_succ, ih (i + 1) j, harith]

/-! ### Key strings of finite points and the position rebuild -/

lemma jsToString_intCast (n : ℤ) : jsToString (num (n : ℝ)) = intChars n := by
  show intChars ⌊((n : ℝ))⌋ = intChars n
  rw [Int.floor_intCast]

lemma keyOf_num {y0 x0 : ℝ} (lon lat : ℝ) (hy : y0 ≠ 0) (hx : x0 ≠ 0) :
    keyOf ⟨num y0, num x0⟩ (num lon, num lat)
      = intChars ⌊(lat + 90) / y0⌋ ++ '-' :: intChars ⌊(lon + 180) / x0⌋ := by
  simp only [keyOf, latIdxOf, lonIdxOf]
  rw [jsAdd_num_num, jsAdd_num_num, jsDiv_num_num _ hy, jsDiv_num_num _ hx,
    jsFloor_num, jsFloor_num, jsToString_intCast, jsToString_intCast]

lemma jsParseInt_intChars {a : ℤ} (ha : 0 ≤ a) :
    jsParseInt (intChars a) = num (a : ℝ) := by
  rw [intChars, if_neg (not_lt.mpr ha), jsParseInt_natChars]
  have h2 : ((a.toNat : ℕ) : ℝ) = (a : ℝ) := by
    exact_mod_cast congrArg (fun z : ℤ => (z : ℝ)) (Int.toNat_of_nonneg ha)
  rw [h2]

lemma intChars_nonneg_no_dash {a : ℤ} (ha : 0 ≤ a) : '-' ∉ intChars a := by
  rw [intChars, if_neg (not_lt.mpr ha)]
  exact natChars_no_dash

/-- The position rebuild of the layer data builder is faithful on keys
whose two components are nonnegative. -/
lemma buildRow_nonneg {P : Type*} (off : GridOffset) (i : ℕ) (cell : GridCell P)
    {a b : ℤ} (ha : 0 ≤ a) (hb : 0 ≤ b) :
    buildRow off i (intChars a ++ '-' :: intChars b, cell)
      = { index := i
          position := (jsAdd (num (-180)) (jsMul off.xOffset (num (b : ℝ))),
            jsAdd (num (-90)) (jsMul off.yOffset (num (a : ℝ))))
          count := cell.count
          points := cell.points } := by
  simp only [buildRow]
  rw [splitDash_append _ (intChars_nonneg_no_dash ha),
    splitDash_no_dash (intChars_nonneg_no_dash hb)]
  simp only [List.getD, List.get?, Option.getD_some]
  rw [jsParseInt_intChars ha, jsParseInt_intChars hb]

/-! ### Concrete values for the sample runs -/

lemma natChars_one : natChars 1 = ['1'] := by
  have h : Nat.digits 10 1 = [1] := by
    rw [Nat.digits_def' (by norm_num : 1 < 10) (by norm_num : 0 < 1)]
    norm_num
  rw [natChars, if_neg one_ne_zero, h]
  decide

lemma natChars_three : natChars 3 = ['3'] := by
  have h : Nat.digits 10 3 = [3] := by
    rw [Nat.digits_def' (by norm_num : 1 < 10) (by norm_num : 0 < 3)]
    norm_num
  rw [natChars, if_neg (by norm_num), h]
  decide

lemma intChars_one : intChars 1 = ['1'] := by
  rw [intChars, if_neg (by norm_num)]
  exact natChars_one

lemma intChars_three : intChars 3 = ['3'] := by
  rw [intChars, if_neg (by norm_num)]
  exact natChars_three

lemma intChars_negOne : intChars (-1) = ['-', '1'] := by
  rw [intChars, if_pos (by norm_num)]
  rw [show ((-1 : ℤ)).natAbs = 1 from rfl, natChars_one]

lemma floor_lat0 : ⌊((0:ℝ) + 90) / (180 / Real.pi)⌋ = 1 := by
  have h : ((0:ℝ) + 90) / (180 / Real.pi) = Real.pi / 2 := by
    rw [div_div_eq_mul_div]
    ring
  rw [h]
  apply Int.floor_eq_iff.mpr
  constructor
  · push_cast
    linarith [Real.pi_gt_three]
  · push_cast
    linarith [Real.pi_lt_d2]

lemma floor_lon181 : ⌊((-181:ℝ) + 180) / (180 / Real.pi)⌋ = -1 := by
  have h : ((-181:ℝ) + 180) / (180 / Real.pi) = -(Real.pi / 180) := by
    rw [div_div_eq_mul_div]
    ring
  rw [h]
  apply Int.floor_eq_iff.mpr
  constructor
  · push_cast
    linarith [Real.pi_lt_d2]
  · push_cast
    linarith [Real.pi_pos]

lemma floor_lon0 : ⌊((0:ℝ) + 180) / (180 / Real.pi)⌋ = 3 := by
  have h : ((0:ℝ) + 180) / (180 / Real.pi) = Real.pi := by
    rw [div_div_eq_mul_div]
    ring
  rw [h]
  apply Int.floor_eq_iff.mpr
  constructor
  · push_cast
    linarith [Real.pi_gt_three]
  · push_cast
    linarith [Real.pi_lt_d2]

lemma offset_6378000_at_0 :
    calculateGridLatLonOffset (num 6378000) (num 0)
      = ⟨num (180 / Real.pi), num (180 / Real.pi)⟩ := by
  have hcos : Real.cos ((0:ℝ) * (Real.pi / 180)) = 1 := by
    rw [zero_mul, Real.cos_zero]
  rw [calculateGridLatLonOffset, calculateLatOffset_num,
    calculateLonOffset_num _ (by rw [hcos] ; norm_num)]
  rw [hcos]
  have h1 : (6378000:ℝ) / 6378000 * (180 / Real.pi) = 180 / Real.pi := by
    norm_num
  rw [h1, div_one]

lemma pi_offset_pos : (0:ℝ) < 180 / Real.pi :=
  div_pos (by norm_num) Real.pi_pos

lemma centerLat_single_lat0 (lon : ℝ) :
    centerLatOf [((num lon, num 0) : JSVal × JSVal)] id = num 0 := by
  rw [centerLatOf]
  show jsDiv (jsAdd (jsMinList [num 0]) (jsMaxList [num 0])) (num 2) = num 0
  rw [jsMinList_cons, jsMinList_nil, jsMaxList_cons, jsMaxList_nil]
  show jsDiv (jsAdd (num 0) (num 0)) (num 2) = num 0
  rw [jsAdd_num_num, jsDiv_num_num _ (by norm_num : (2:ℝ) ≠ 0)]
  norm_num

/-- Concrete run: one point at longitude -181 (outside the nominal
range), latitude 0, cell size 6378000 m.  The computed offsets are both
180/π degrees, the point hashes to `latIdx = 1`, `lonIdx = -1`, and the
grid hash holds the single key `"1--1"`. -/
lemma run6378 :
    pointsToGridHashing [((num (-181), num 0) : JSVal × JSVal)] (num 6378000) id
      = ⟨[(['1', '-', '-', '1'], ⟨1, [(num (-181), num 0)]⟩)],
          ⟨num (180 / Real.pi), num (180 / Real.pi)⟩⟩ := by
  have hoffc : calculateGridLatLonOffset (num 6378000)
      (centerLatOf [((num (-181), num 0) : JSVal × JSVal)] id)
      = ⟨num (180 / Real.pi), num (180 / Real.pi)⟩ := by
    rw [centerLat_single_lat0, offset_6378000_at_0]
  have hguard : ¬ (jsLe (calculateGridLatLonOffset (num 6378000)
        (centerLatOf [((num (-181), num 0) : JSVal × JSVal)] id)).xOffset (num 0)
      ∨ jsLe (calculateGridLatLonOffset (num 6378000)
        (centerLatOf [((num (-181), num 0) : JSVal × JSVal)] id)).yOffset (num 0)) := by
    rw [hoffc]
    push_neg
    exact ⟨not_le.mpr pi_offset_pos, not_le.mpr pi_offset_pos⟩
  rw [pointsToGridHashing_binned hguard, hoffc]
  have hkey : keyOf ⟨num (180 / Real.pi), num (180 / Real.pi)⟩ (num (-181), num 0)
      = ['1', '-', '-', '1'] := by
    rw [keyOf_num _ _ (ne_of_gt pi_offset_pos) (ne_of_gt pi_offset_pos),
      floor_lat0, floor_lon181, intChars_one, intChars_negOne]
    rfl
  rw [gridFold_cons, gridFold_nil]
  simp only [id_eq]
  rw [hkey, updateGrid]

/-- Concrete run: one point at the origin, cell size 6378000 m.  The
point hashes to `latIdx = 1`, `lonIdx = 3`, key `"1-3"`. -/
lemma run0 :
    pointsToGridHashing [((num 0, num 0) : JSVal × JSVal)] (num 6378000) id
      = ⟨[(['1', '-', '3'], ⟨1, [(num 0, num 0)]⟩)],
          ⟨num (180 / Real.pi), num (180 / Real.pi)⟩⟩ := by
  have hoffc : calculateGridLatLonOffset (num 6378000)
      (centerLatOf [((num 0, num 0) : JSVal × JSVal)] id)
      = ⟨num (180 / Real.pi), num (180 / Real.pi)⟩ := by
    rw [centerLat_single_lat0, offset_6378000_at_0]
  have hguard : ¬ (jsLe (calculateGridLatLonOffset (num 6378000)
        (centerLatOf [((num 0, num 0) : JSVal × JSVal)] id)).xOffset (num 0)
      ∨ jsLe (calculateGridLatLonOffset (num 6378000)
        (centerLatOf [((num 0, num 0) : JSVal × JSVal)] id)).yOffset (num 0)) := by
    rw [hoffc]
    push_neg
    exact ⟨not_le.mpr pi_offset_pos, not_le.mpr pi_offset_pos⟩
  rw [pointsToGridHashing_binned hguard, hoffc]
  have hkey : keyOf ⟨num (180 / Real.pi), num (180 / Real.pi)⟩ (num 0, num 0)
      = ['1', '-', '3'] := by
    rw [keyOf_num _ _ (ne_of_gt pi_offset_pos) (ne_of_gt pi_offset_pos),
      floor_lat0, floor_lon0, intChars_one, intChars_three]
    rfl
  rw [gridFold_cons, gridFold_nil]
  simp only [id_eq]
  rw [hkey, updateGrid]

/-! ### Special-value paths: NaN latitudes, empty input, nonpositive
cell sizes -/

lemma pointToDensityGridData_eq {P : Type*} (points : List P) (cellSize : JSVal)
    (g : P → JSVal × JSVal) :
    pointToDensityGridData points cellSize g
      = ⟨(pointsToGridHashing points cellSize g).gridOffset,
          getGridLayerDataFromGridHash (pointsToGridHashing points cellSize g).gridHash
            (pointsToGridHashing points cellSize g).gridOffset⟩ := rfl

lemma pointsToGridHashing_nil {P : Type*} (cellSize : JSVal)
    (g : P → JSVal × JSVal) :
    pointsToGridHashing ([] : List P) cellSize g
      = ⟨[], calculateGridLatLonOffset cellSize (centerLatOf ([] : List P) g)⟩ := by
  rw [pointsToGridHashing]
  split <;> rfl

lemma centerLatOf_nil {P : Type*} (g : P → JSVal × JSVal) :
    centerLatOf ([] : List P) g = nan := rfl

lemma yOffset_nonpos {c : ℝ} (hc : c ≤ 0) :
    c / 6378000 * (180 / Real.pi) ≤ 0 :=
  mul_nonpos_of_nonpos_of_nonneg
    (div_nonpos_of_nonpos_of_nonneg hc (by norm_num))
    (le_of_lt pi_offset_pos)

/-- Concrete run with a NaN latitude: the reference latitude, hence the
longitude offset, is NaN; the guard does not fire (`NaN <= 0` is false)
and the point is binned under the key `"NaN-NaN"`. -/
lemma runNaN :
    pointsToGridHashing [((num 0, nan) : JSVal × JSVal)] (num 1) id
      = ⟨[(['N', 'a', 'N', '-', 'N', 'a', 'N'], ⟨1, [(num 0, nan)]⟩)],
          ⟨num (1 / 6378000 * (180 / Real.pi)), nan⟩⟩ := by
  have hcenter : centerLatOf [((num 0, nan) : JSVal × JSVal)] id = nan := rfl
  have hoffc : calculateGridLatLonOffset (num 1)
      (centerLatOf [((num 0, nan) : JSVal × JSVal)] id)
      = ⟨num (1 / 6378000 * (180 / Real.pi)), nan⟩ := by
    rw [hcenter, calculateGridLatLonOffset, calculateLatOffset_num,
      calculateLonOffset_nan]
  have hy : (0:ℝ) < 1 / 6378000 * (180 / Real.pi) := by
    have := Real.pi_pos
    positivity
  have hguard : ¬ (jsLe (calculateGridLatLonOffset (num 1)
        (centerLatOf [((num 0, nan) : JSVal × JSVal)] id)).xOffset (num 0)
      ∨ jsLe (calculateGridLatLonOffset (num 1)
        (centerLatOf [((num 0, nan) : JSVal × JSVal)] id)).yOffset (num 0)) := by
    rw [hoffc]
    rintro (h | h)
    · exact not_jsLe_nan_left _ h
    · exact absurd h (not_le.mpr hy)
  rw [pointsToGridHashing_binned hguard, hoffc]
  rfl

lemma jsDiv_num_zero_of_pos {a : ℝ} (h : 0 < a) :
    jsDiv (num a) (num 0) = pinf := by
  simp [jsDiv, h, h.ne']

lemma jsDiv_zero_zero : jsDiv (num 0) (num 0) = nan := by
  simp [jsDiv]

/-! ### The claims -/

/-- Claim C5: for every point sequence and every cell size equal to zero
or negative, `pointToDensityGridData` returns `layerData = []` regardless
of the point content (and, being a total function, raises no error). -/
theorem c5_nonpositive_cellsize_empty {P : Type*} (points : List P)
    (g : P → JSVal × JSVal) (c : ℝ) (hc : c ≤ 0) :
    (pointToDensityGridData points (num c) g).layerData = [] := by
  have hyoff : (calculateGridLatLonOffset (num c) (centerLatOf points g)).yOffset
      = num (c / 6378000 * (180 / Real.pi)) := by
    simp only [calculateGridLatLonOffset]
    rw [calculateLatOffset_num]
  have hguard : jsLe (calculateGridLatLonOffset (num c) (centerLatOf points g)).xOffset (num 0)
      ∨ jsLe (calculateGridLatLonOffset (num c) (centerLatOf points g)).yOffset (num 0) :=
    Or.inr (by rw [hyoff] ; exact yOffset_nonpos hc)
  rw [pointToDensityGridData_eq, pointsToGridHashing_guard hguard]
  rfl

/-- Witness for C5 at `cellSize = 0` with one point. -/
theorem c5_nonpositive_cellsize_empty_witness :
    (0:ℝ) ≤ 0 ∧
    (pointToDensityGridData [((num 1, num 2) : JSVal × JSVal)] (num 0) id).layerData = [] :=
  ⟨le_refl 0, c5_nonpositive_cellsize_empty _ id 0 (le_refl 0)⟩

/-- Claim C6: the offset calculator returns
`yOffset = (cellSize / 6378000) * (180 / π)` independently of the
latitude, and `xOffset = yOffset / cos(latitude * π / 180)`; it is a
total function, giving `Infinity`/`NaN` instead of an error when the
cosine vanishes (a pole). -/
theorem c6_offset_formulas (c lat : ℝ) :
    (calculateGridLatLonOffset (num c) (num lat)).yOffset
        = num (c / 6378000 * (180 / Real.pi))
    ∧ (Real.cos (lat * (Real.pi / 180)) ≠ 0 →
        (calculateGridLatLonOffset (num c) (num lat)).xOffset
          = num (c / 6378000 * (180 / Real.pi) / Real.cos (lat * (Real.pi / 180))))
    ∧ (Real.cos (lat * (Real.pi / 180)) = 0 → 0 < c →
        (calculateGridLatLonOffset (num c) (num lat)).xOffset = pinf)
    ∧ (Real.cos (lat * (Real.pi / 180)) = 0 → c = 0 →
        (calculateGridLatLonOffset (num c) (num lat)).xOffset = nan) := by
  refine ⟨?_, ?_, ?_, ?_⟩
  · simp only [calculateGridLatLonOffset]
    rw [calculateLatOffset_num]
  · intro h
    simp only [calculateGridLatLonOffset]
    rw [calculateLonOffset_num _ h]
  · intro h hc
    simp only [calculateGridLatLonOffset]
    rw [calculateLonOffset_num_aux, h]
    have hy : (0:ℝ) < c / 6378000 * (180 / Real.pi) := by
      have := Real.pi_pos
      positivity
    exact jsDiv_num_zero_of_pos hy
  · intro h hc
    subst hc
    simp only [calculateGridLatLonOffset]
    rw [calculateLonOffset_num_aux, h,
      show (0:ℝ) / 6378000 * (180 / Real.pi) = 0 by norm_num]
    exact jsDiv_zero_zero

/-- Witness for C6 at `cellSize = 1`, latitude 0 (cosine is 1 there). -/
theorem c6_offset_formulas_witness :
    Real.cos ((0:ℝ) * (Real.pi / 180)) ≠ 0 ∧
    (calculateGridLatLonOffset (num 1) (num 0)).xOffset
      = num (1 / 6378000 * (180 / Real.pi) / Real.cos ((0:ℝ) * (Real.pi / 180))) :=
  have h : Real.cos ((0:ℝ) * (Real.pi / 180)) ≠ 0 := by
    rw [zero_mul, Real.cos_zero]
    norm_num
  ⟨h, (c6_offset_formulas 1 0).2.1 h⟩

/-- Claim C7: the reference latitude fed to the offset calculator is the
midpoint `(latMin + latMax) / 2` of the latitude range of the input, and
the grid offset returned with the hash is the one computed from it (a
single computation per invocation, not per point). -/
theorem c7_center_latitude {P : Type*} (points : List P) (cellSize : JSVal)
    (g : P → JSVal × JSVal) (x : ℝ) (l : List ℝ)
    (h : points.map (fun p => (g p).2) = (x :: l).map num) :
    centerLatOf points g = num ((realMin x l + realMax x l) / 2)
    ∧ (pointsToGridHashing points cellSize g).gridOffset
        = calculateGridLatLonOffset cellSize (centerLatOf points g) :=
  ⟨centerLatOf_map_num h, gridOffset_of_pointsToGridHashing points cellSize g⟩

/-- Witness for C7 on two points with latitudes 3 and 7. -/
theorem c7_center_latitude_witness :
    ([((num 5, num 3) : JSVal × JSVal), (num 6, num 7)].map (fun p => (id p).2)
        = ([3, 7] : List ℝ).map num)
    ∧ (centerLatOf [((num 5, num 3) : JSVal × JSVal), (num 6, num 7)] id
        = num ((realMin 3 [7] + realMax 3 [7]) / 2)
    ∧ (pointsToGridHashing [((num 5, num 3) : JSVal × JSVal), (num 6, num 7)] (num 1) id).gridOffset
        = calculateGridLatLonOffset (num 1)
            (centerLatOf [((num 5, num 3) : JSVal × JSVal), (num 6, num 7)] id)) :=
  ⟨rfl, c7_center_latitude _ (num 1) id 3 [7] rfl⟩

/-- Claim C8: a point exactly on a cell's lower latitude (resp.
longitude) edge is assigned to the cell starting at that boundary, by
floor semantics; in particular with `yOffset = 1` a point at latitude
exactly -89 gets `latIdx = 1`. -/
theorem c8_boundary_floor :
    (∀ (y x : ℝ) (k : ℤ) (v : JSVal), 0 < y → 0 < x →
      latIdxOf ⟨num y, num x⟩ (v, num (-90 + k * y)) = num (k : ℝ)
      ∧ lonIdxOf ⟨num y, num x⟩ (num (-180 + k * x), v) = num (k : ℝ))
    ∧ (∀ v : JSVal, latIdxOf ⟨num 1, num 1⟩ (v, num (-89)) = num 1) := by
  constructor
  · intro y x k v hy hx
    constructor
    · show jsFloor (jsDiv (jsAdd (num (-90 + k * y)) (num 90)) (num y)) = _
      rw [jsAdd_num_num, jsDiv_num_num _ (ne_of_gt hy), jsFloor_num,
        show (-90 + (k:ℝ) * y + 90) = (k:ℝ) * y by ring,
        mul_div_cancel_right₀ _ (ne_of_gt hy), Int.floor_intCast]
    · show jsFloor (jsDiv (jsAdd (num (-180 + k * x)) (num 180)) (num x)) = _
      rw [jsAdd_num_num, jsDiv_num_num _ (ne_of_gt hx), jsFloor_num,
        show (-180 + (k:ℝ) * x + 180) = (k:ℝ) * x by ring,
        mul_div_cancel_right₀ _ (ne_of_gt hx), Int.floor_intCast]
  · intro v
    show jsFloor (jsDiv (jsAdd (num (-89)) (num 90)) (num 1)) = _
    rw [jsAdd_num_num, jsDiv_num_num _ one_ne_zero,
      show ((-89:ℝ) + 90) / 1 = 1 by norm_num, jsFloor_num, Int.floor_one]
    exact congrArg num (by push_cast ; ring)

/-- Witness for C8 at `yOffset = xOffset = 1`, `k = 1`. -/
theorem c8_boundary_floor_witness :
    (0:ℝ) < 1 ∧
    latIdxOf ⟨num 1, num 1⟩ (num 0, num (-90 + (1:ℤ) * 1)) = num ((1:ℤ) : ℝ) :=
  ⟨one_pos, (c8_boundary_floor.1 1 1 1 (num 0) one_pos one_pos).1⟩

/-- Claim C4, amended: the guard returns an empty grid hash exactly when
one of the computed offsets actually compares `<= 0` (nonpositive finite
or `-Infinity`).  A NaN offset is not caught: `NaN <= 0` is false in
JavaScript, so binning proceeds (see `c4_nan_counterexample`). -/
theorem c4_guard_nonpositive {P : Type*} (points : List P) (cellSize : JSVal)
    (g : P → JSVal × JSVal)
    (h : jsLe (pointsToGridHashing points cellSize g).gridOffset.xOffset (num 0)
      ∨ jsLe (pointsToGridHashing points cellSize g).gridOffset.yOffset (num 0)) :
    (pointsToGridHashing points cellSize g).gridHash = [] := by
  rw [gridOffset_of_pointsToGridHashing] at h
  rw [pointsToGridHashing_guard h]

/-- Counterexample to C4 as stated: with one point whose latitude is NaN
and `cellSize = 1`, the computed `xOffset` is NaN, yet the function does
not return an empty grid hash — the point is binned under the key
`"NaN-NaN"`. -/
theorem c4_nan_counterexample :
    (pointsToGridHashing [((num 0, nan) : JSVal × JSVal)] (num 1) id).gridOffset.xOffset = nan
    ∧ (pointsToGridHashing [((num 0, nan) : JSVal × JSVal)] (num 1) id).gridHash
        = [(['N', 'a', 'N', '-', 'N', 'a', 'N'], ⟨1, [(num 0, nan)]⟩)]
    ∧ (pointsToGridHashing [((num 0, nan) : JSVal × JSVal)] (num 1) id).gridHash ≠ [] := by
  refine ⟨?_, ?_, ?_⟩
  · rw [runNaN]
  · rw [runNaN]
  · rw [runNaN]
    simp

/-- Witness for the amended C4 with `cellSize = 0` (the latitude offset
is 0, which the guard does catch). -/
theorem c4_guard_nonpositive_witness :
    (jsLe (pointsToGridHashing ([] : List (JSVal × JSVal)) (num 0) id).gridOffset.xOffset (num 0)
      ∨ jsLe (pointsToGridHashing ([] : List (JSVal × JSVal)) (num 0) id).gridOffset.yOffset (num 0))
    ∧ (pointsToGridHashing ([] : List (JSVal × JSVal)) (num 0) id).gridHash = [] := by
  have h : jsLe (pointsToGridHashing ([] : List (JSVal × JSVal)) (num 0) id).gridOffset.xOffset (num 0)
      ∨ jsLe (pointsToGridHashing ([] : List (JSVal × JSVal)) (num 0) id).gridOffset.yOffset (num 0) := by
    refine Or.inr ?_
    rw [gridOffset_of_pointsToGridHashing]
    have hyoff : (calculateGridLatLonOffset (num 0)
        (centerLatOf ([] : List (JSVal × JSVal)) id)).yOffset
        = num ((0:ℝ) / 6378000 * (180 / Real.pi)) := by
      simp only [calculateGridLatLonOffset]
      rw [calculateLatOffset_num]
    rw [hyoff]
    show (0:ℝ) / 6378000 * (180 / Real.pi) ≤ 0
    norm_num
  exact ⟨h, c4_guard_nonpositive _ _ _ h⟩

/-- Claim C10: on the empty point sequence, for any cell size,
`pointToDensityGridData` returns an empty `layerData`; the returned
`yOffset` is computed from the cell size as usual while `xOffset` is NaN
(empty min/max give `Infinity + -Infinity = NaN` as the reference
latitude); the NaN offset never satisfies the guard test (`NaN <= 0` is
false); and the grid hash is empty simply because there is nothing to
bin. -/
theorem c10_empty_input {P : Type*} (c : ℝ) (g : P → JSVal × JSVal) :
    (pointToDensityGridData ([] : List P) (num c) g).layerData = []
    ∧ (pointToDensityGridData ([] : List P) (num c) g).gridOffset.yOffset
        = num (c / 6378000 * (180 / Real.pi))
    ∧ (pointToDensityGridData ([] : List P) (num c) g).gridOffset.xOffset = nan
    ∧ ¬ jsLe nan (num 0)
    ∧ (pointsToGridHashing ([] : List P) (num c) g).gridHash = [] := by
  have hoff : calculateGridLatLonOffset (num c) (centerLatOf ([] : List P) g)
      = ⟨num (c / 6378000 * (180 / Real.pi)), nan⟩ := by
    rw [centerLatOf_nil, calculateGridLatLonOffset, calculateLatOffset_num,
      calculateLonOffset_nan]
  refine ⟨?_, ?_, ?_, not_jsLe_nan_left _, ?_⟩
  · rw [pointToDensityGridData_eq, pointsToGridHashing_nil]
    rfl
  · rw [pointToDensityGridData_eq, pointsToGridHashing_nil, hoff]
  · rw [pointToDensityGridData_eq, pointsToGridHashing_nil, hoff]
  · rw [pointsToGridHashing_nil]

/-- Witness for C10 at `cellSize = 1`. -/
theorem c10_empty_input_witness :
    (pointToDensityGridData ([] : List (JSVal × JSVal)) (num 1) id).layerData = []
    ∧ (pointToDensityGridData ([] : List (JSVal × JSVal)) (num 1) id).gridOffset.yOffset
        = num ((1:ℝ) / 6378000 * (180 / Real.pi))
    ∧ (pointToDensityGridData ([] : List (JSVal × JSVal)) (num 1) id).gridOffset.xOffset = nan
    ∧ ¬ jsLe nan (num 0)
    ∧ (pointsToGridHashing ([] : List (JSVal × JSVal)) (num 1) id).gridHash = [] :=
  c10_empty_input 1 id

/-- Claim C1: for every non-empty point sequence with a positive finite
cell size and all latitudes strictly inside (-89, 89), the counts of the
returned `layerData` sum to the number of input points. -/
theorem c1_total_count {P : Type*} (points : List P) (g : P → JSVal × JSVal)
    (c : ℝ) (hne : points ≠ []) (hc : 0 < c)
    (hlat : ∀ p ∈ points, ∃ y : ℝ, (g p).2 = num y ∧ -89 < y ∧ y < 89) :
    ((pointToDensityGridData points (num c) g).layerData.map (fun d => d.count)).sum
      = points.length := by
  obtain ⟨y0, x0, hy0, hx0, hoff, hrun⟩ := pointsToGridHashing_inrange hne hc hlat
  rw [pointToDensityGridData_eq, hrun]
  show ((buildRows _ 0 (gridFold ⟨num y0, num x0⟩ g [] points)).map (fun d => d.count)).sum
      = points.length
  rw [buildRows_map_count]
  show sumCounts (gridFold ⟨num y0, num x0⟩ g [] points) = points.length
  rw [sumCounts_gridFold]
  simp [sumCounts]

/-- Witness for C1 with one point at the origin and `cellSize = 1`. -/
theorem c1_total_count_witness :
    (([((num 0, num 0) : JSVal × JSVal)] : List (JSVal × JSVal)) ≠ []
      ∧ (0:ℝ) < 1
      ∧ ∀ p ∈ [((num 0, num 0) : JSVal × JSVal)],
          ∃ y : ℝ, (id p).2 = num y ∧ -89 < y ∧ y < 89)
    ∧ ((pointToDensityGridData [((num 0, num 0) : JSVal × JSVal)] (num 1) id).layerData.map
        (fun d => d.count)).sum = [((num 0, num 0) : JSVal × JSVal)].length := by
  have h1 : ([((num 0, num 0) : JSVal × JSVal)] : List (JSVal × JSVal)) ≠ [] := by simp
  have h3 : ∀ p ∈ [((num 0, num 0) : JSVal × JSVal)],
      ∃ y : ℝ, (id p).2 = num y ∧ -89 < y ∧ y < 89 := by
    intro p hp
    rw [List.mem_singleton] at hp
    subst hp
    exact ⟨0, rfl, by norm_num, by norm_num⟩
  exact ⟨⟨h1, one_pos, h3⟩, c1_total_count _ id 1 h1 one_pos h3⟩

/-- Claim C3: every point stored in an occupied cell rebins, through the
floor formulas with the returned grid offset, to exactly the key
identifying that cell; and the layer data rows carry exactly the cells'
point lists, in hash order. -/
theorem c3_rebin_key {P : Type*} (points : List P) (cellSize : JSVal)
    (g : P → JSVal × JSVal) :
    (∀ e ∈ (pointsToGridHashing points cellSize g).gridHash,
        ∀ p ∈ e.2.points,
          keyOf (pointsToGridHashing points cellSize g).gridOffset (g p) = e.1)
    ∧ (pointToDensityGridData points cellSize g).layerData.map (fun d => d.points)
        = (pointsToGridHashing points cellSize g).gridHash.map (fun e => e.2.points) := by
  constructor
  · intro e he p hp
    by_cases hguard : (jsLe (calculateGridLatLonOffset cellSize (centerLatOf points g)).xOffset (num 0)
        ∨ jsLe (calculateGridLatLonOffset cellSize (centerLatOf points g)).yOffset (num 0))
    · rw [pointsToGridHashing_guard hguard] at he
      simp at he
    · rw [pointsToGridHashing_binned hguard] at he
      have hspec := gridFold_entry_spec
        (calculateGridLatLonOffset cellSize (centerLatOf points g)) g points e he
      rw [hspec.2.2] at hp
      have hpred := (List.mem_filter.mp hp).2
      rw [gridOffset_of_pointsToGridHashing]
      exact of_decide_eq_true hpred
  · rw [pointToDensityGridData_eq]
    show (buildRows _ 0 _).map (fun d => d.points) = _
    rw [buildRows_map_points]

/-- Witness for C3 on the concrete origin run. -/
theorem c3_rebin_key_witness :
    ((['1', '-', '3'],
        (⟨1, [((num 0, num 0) : JSVal × JSVal)]⟩ : GridCell (JSVal × JSVal)))
      ∈ (pointsToGridHashing [((num 0, num 0) : JSVal × JSVal)] (num 6378000) id).gridHash)
    ∧ (((num 0, num 0) : JSVal × JSVal) ∈ [((num 0, num 0) : JSVal × JSVal)])
    ∧ keyOf (pointsToGridHashing [((num 0, num 0) : JSVal × JSVal)] (num 6378000) id).gridOffset
        (id ((num 0, num 0) : JSVal × JSVal))
      = ['1', '-', '3'] := by
  have hmem : (['1', '-', '3'],
      (⟨1, [((num 0, num 0) : JSVal × JSVal)]⟩ : GridCell (JSVal × JSVal)))
      ∈ (pointsToGridHashing [((num 0, num 0) : JSVal × JSVal)] (num 6378000) id).gridHash := by
    rw [run0]
    exact List.mem_singleton.mpr rfl
  have hp : ((num 0, num 0) : JSVal × JSVal) ∈ [((num 0, num 0) : JSVal × JSVal)] :=
    List.mem_singleton.mpr rfl
  exact ⟨hmem, hp,
    (c3_rebin_key [((num 0, num 0) : JSVal × JSVal)] (num 6378000) id).1 _ hmem _ hp⟩

/-- Claim C9: in every occupied cell, `points` is exactly the input
subsequence (in input order) of the points hashing to that cell's key,
`count` equals its length and is at least 1, and both fields are carried
verbatim into the corresponding layer data row. -/
theorem c9_cell_contents {P : Type*} (points : List P) (cellSize : JSVal)
    (g : P → JSVal × JSVal) :
    (∀ e ∈ (pointsToGridHashing points cellSize g).gridHash,
        e.2.count = e.2.points.length ∧ 1 ≤ e.2.count ∧
        e.2.points = points.filter
          (fun p => keyOf (pointsToGridHashing points cellSize g).gridOffset (g p) = e.1))
    ∧ (pointToDensityGridData points cellSize g).layerData.map (fun d => (d.count, d.points))
        = (pointsToGridHashing points cellSize g).gridHash.map (fun e => (e.2.count, e.2.points)) := by
  constructor
  · intro e he
    by_cases hguard : (jsLe (calculateGridLatLonOffset cellSize (centerLatOf points g)).xOffset (num 0)
        ∨ jsLe (calculateGridLatLonOffset cellSize (centerLatOf points g)).yOffset (num 0))
    · rw [pointsToGridHashing_guard hguard] at he
      simp at he
    · rw [pointsToGridHashing_binned hguard] at he
      have hspec := gridFold_entry_spec
        (calculateGridLatLonOffset cellSize (centerLatOf points g)) g points e he
      refine ⟨hspec.1, hspec.2.1, ?_⟩
      rw [gridOffset_of_pointsToGridHashing]
      exact hspec.2.2
  · rw [pointToDensityGridData_eq]
    show (buildRows _ 0 _).map (fun d => (d.count, d.points)) = _
    rw [buildRows_map_count_points]

/-- Witness for C9 on the concrete origin run. -/
theorem c9_cell_contents_witness :
    ((['1', '-', '3'],
        (⟨1, [((num 0, num 0) : JSVal × JSVal)]⟩ : GridCell (JSVal × JSVal)))
      ∈ (pointsToGridHashing [((num 0, num 0) : JSVal × JSVal)] (num 6378000) id).gridHash)
    ∧ ((1:ℕ) = [((num 0, num 0) : JSVal × JSVal)].length ∧ (1:ℕ) ≤ 1 ∧
        [((num 0, num 0) : JSVal × JSVal)]
          = [((num 0, num 0) : JSVal × JSVal)].filter
              (fun p => keyOf (pointsToGridHashing [((num 0, num 0) : JSVal × JSVal)]
                  (num 6378000) id).gridOffset (id p) = ['1', '-', '3'])) := by
  have hmem : (['1', '-', '3'],
      (⟨1, [((num 0, num 0) : JSVal × JSVal)]⟩ : GridCell (JSVal × JSVal)))
      ∈ (pointsToGridHashing [((num 0, num 0) : JSVal × JSVal)] (num 6378000) id).gridHash := by
    rw [run0]
    exact List.mem_singleton.mpr rfl
  exact ⟨hmem,
    (c9_cell_contents [((num 0, num 0) : JSVal × JSVal)] (num 6378000) id).1 _ hmem⟩

/-- Counterexample to C2 as stated: one point at longitude -181 (just
outside the nominal range) hashes to `lonIdx = -1`, producing the key
`"1--1"`; the builder misparses it (`split("-")` yields `["1","","1"]`
and `parseInt("")` is NaN), so the rebuilt longitude coordinate is NaN,
not the finite value `-180 + xOffset * lonIdx` the claim requires. -/
theorem c2_position_counterexample :
    (pointToDensityGridData [((num (-181), num 0) : JSVal × JSVal)] (num 6378000) id).layerData.map
        (fun d => d.position.1) = [nan]
    ∧ (pointsToGridHashing [((num (-181), num 0) : JSVal × JSVal)] (num 6378000) id).gridHash.map
        Prod.fst = [['1', '-', '-', '1']]
    ∧ nan ≠ jsAdd (num (-180))
        (jsMul (pointToDensityGridData [((num (-181), num 0) : JSVal × JSVal)]
            (num 6378000) id).gridOffset.xOffset
          (num (-1 : ℝ))) := by
  refine ⟨?_, ?_, ?_⟩
  · rw [pointToDensityGridData_eq, run6378]
    rfl
  · rw [run6378]
    rfl
  · rw [pointToDensityGridData_eq, run6378]
    intro h
    exact JSVal.noConfusion h

/-- Claim C2, amended: for every layer data row whose cell key has
nonnegative `latIdx` and `lonIdx`, the rebuilt `position` equals
`[-180 + xOffset * lonIdx, -90 + yOffset * latIdx]`.  (For a negative
index the string decode misparses and a NaN coordinate results, see
`c2_position_counterexample`.) -/
theorem c2_position_nonneg {P : Type*} (points : List P) (cellSize : JSVal)
    (g : P → JSVal × JSVal) (j : ℕ) (k : List Char) (cell : GridCell P)
    (a b : ℤ) (ha : 0 ≤ a) (hb : 0 ≤ b)
    (hget : (pointsToGridHashing points cellSize g).gridHash.get? j = some (k, cell))
    (hk : k = intChars a ++ '-' :: intChars b) :
    (pointToDensityGridData points cellSize g).layerData.get? j
      = some { index := j
               position := (jsAdd (num (-180))
                   (jsMul (pointsToGridHashing points cellSize g).gridOffset.xOffset (num (b : ℝ))),
                 jsAdd (num (-90))
                   (jsMul (pointsToGridHashing points cellSize g).gridOffset.yOffset (num (a : ℝ))))
               count := cell.count
               points := cell.points } := by
  rw [pointToDensityGridData_eq]
  show (buildRows _ 0 _).get? j = _
  rw [buildRows_get, Nat.zero_add, hget, hk]
  simp only [Option.map_some']
  rw [buildRow_nonneg _ _ _ ha hb]

/-- Witness for the amended C2 on the concrete origin run
(`latIdx = 1`, `lonIdx = 3`). -/
theorem c2_position_nonneg_witness :
    ((0:ℤ) ≤ 1 ∧ (0:ℤ) ≤ 3
      ∧ (pointsToGridHashing [((num 0, num 0) : JSVal × JSVal)] (num 6378000) id).gridHash.get? 0
          = some (['1', '-', '3'], ⟨1, [((num 0, num 0) : JSVal × JSVal)]⟩)
      ∧ (['1', '-', '3'] : List Char) = intChars 1 ++ '-' :: intChars 3)
    ∧ (pointToDensityGridData [((num 0, num 0) : JSVal × JSVal)] (num 6378000) id).layerData.get? 0
      = some { index := 0
               position := (jsAdd (num (-180))
                   (jsMul (pointsToGridHashing [((num 0, num 0) : JSVal × JSVal)]
                       (num 6378000) id).gridOffset.xOffset (num ((3:ℤ) : ℝ))),
                 jsAdd (num (-90))
                   (jsMul (pointsToGridHashing [((num 0, num 0) : JSVal × JSVal)]
                       (num 6378000) id).gridOffset.yOffset (num ((1:ℤ) : ℝ))))
               count := (⟨1, [((num 0, num 0) : JSVal × JSVal)]⟩ : GridCell (JSVal × JSVal)).count
               points := (⟨1, [((num 0, num 0) : JSVal × JSVal)]⟩ : GridCell (JSVal × JSVal)).points } := by
  have hget : (pointsToGridHashing [((num 0, num 0) : JSVal × JSVal)] (num 6378000) id).gridHash.get? 0
      = some (['1', '-', '3'], ⟨1, [((num 0, num 0) : JSVal × JSVal)]⟩) := by
    rw [run0]
    rfl
  have hk : (['1', '-', '3'] : List Char) = intChars 1 ++ '-' :: intChars 3 := by
    rw [intChars_one, intChars_three]
    rfl
  exact ⟨⟨by norm_num, by norm_num, hget, hk⟩,
    c2_position_nonneg _ _ id 0 _ _ 1 3 (by norm_num) (by norm_num) hget hk⟩

end GridAgg
